import Mathlib

/-!
Shallow embedding of the DetoxEdge booking engine.

Sources:
* `src/server.js`        — MongoDB backend (helpers, soft holds, checkout, confirm)
* `src/unnamed/part_000` — Prisma/Postgres backend (same app; `overlapsPrisma`,
  `withinHours` variant)

Time is modelled in whole minutes since an epoch placed at a Sunday midnight
in the configured timezone, so `t / 1440` is the day index and
`(t / 1440) % 7` is the JavaScript `Date.getDay()` weekday (0 = Sunday).
All instants the program manipulates are whole minutes (`addMinutes`,
`HH:MM` opening hours, 15-minute slots), and the ISO strings it stores
round-trip through `parseISO`/`formatISO` losslessly at this granularity;
Prisma's lexicographic comparison of the fixed-width ISO strings agrees
with the numeric order of the instants, so both backends are embedded over
the same `Nat` timestamps. `nanoid` fresh-identifier generation is
externalised: operations take the freshly minted identifier(s) as
arguments.
-/

namespace DetoxEdge

/-- Service identifiers, from the `SERVICES` table (both files). -/
inductive ServiceId
  | sauna
  | hbot
  | icebath
  | redlight
  | hydrogen
  | lymph
deriving DecidableEq

/-- `SERVICES[s].duration` (minutes). -/
def duration : ServiceId → Nat
  | .sauna => 15
  | .hbot => 60
  | .icebath => 10
  | .redlight => 15
  | .hydrogen => 20
  | .lymph => 15

/-- `BUFFERS[s]` (minutes). -/
def buffer : ServiceId → Nat
  | .sauna => 0
  | .hbot => 30
  | .icebath => 0
  | .redlight => 5
  | .hydrogen => 5
  | .lymph => 5

/-- `SERVICES[s].price` (dollars). -/
def price : ServiceId → Nat
  | .sauna => 10
  | .hbot => 75
  | .icebath => 10
  | .redlight => 10
  | .hydrogen => 20
  | .lymph => 10

/-- Bundle catalog entry (`BUNDLES` array in both files). -/
structure Bundle where
  id : String
  label : String
  services : List ServiceId
  price : Nat
  totalMinutes : Nat
deriving DecidableEq

/-- The `BUNDLES` constant. -/
def BUNDLES : List Bundle :=
  [ ⟨"bundle_alt_cold_sauna", "Cold Plunge + Sauna Alternating Therapy",
      [.icebath, .sauna], 20, 30⟩,
    ⟨"bundle_red_lymph", "Red Light + Lymph Vibe Plate",
      [.redlight, .lymph], 15, 15⟩,
    ⟨"bundle_hbot_sauna", "mHBOT + Sauna",
      [.hbot, .sauna], 80, 90⟩,
    ⟨"bundle_hbot_sauna_cold", "mHBOT + Sauna + Ice Bath",
      [.hbot, .sauna, .icebath], 85, 90⟩,
    ⟨"bundle_premium_rejuv", "Premium Rejuvenation Bundle",
      [.hbot, .sauna, .icebath, .redlight], 95, 105⟩,
    ⟨"bundle_platinum_rejuv", "Platinum Rejuvenation Bundle",
      [.hbot, .sauna, .icebath, .redlight, .hydrogen], 105, 120⟩ ]

/-- `SLOT` — availability step in minutes. -/
def SLOT : Nat := 15

/-- `SAME_DAY_CUTOFF_MIN` — same-day cutoff (0 = disabled). -/
def SAME_DAY_CUTOFF_MIN : Nat := 0

/-- `HOLD_TTL_MIN` — hold time-to-live in minutes. -/
def HOLD_TTL_MIN : Nat := 12

/-- `WEEKLY_HOURS`, as minutes after midnight per JS weekday
(0 = Sunday .. 6 = Saturday); `none` means closed. -/
def WEEKLY_HOURS : Nat → Option (Nat × Nat)
  | 1 => some (420, 1080)
  | 2 => some (420, 720)
  | 3 => some (420, 1080)
  | 4 => some (420, 720)
  | 5 => some (420, 1080)
  | _ => none

/-- `businessWindowOn` (both files): the open/close instants of the day
containing `t`, or `none` when the weekday is closed. `server.js` builds
them with `startOfDay`/`setHours`/`setMinutes`; `part_000` does the same
after re-formatting the date — both anchor the configured `HH:MM` strings
to midnight of `t`'s day. -/
def businessWindowOn (t : Nat) : Option (Nat × Nat) :=
  match WEEKLY_HOURS ((t / 1440) % 7) with
  | none => none
  | some oc => some (t / 1440 * 1440 + oc.1, t / 1440 * 1440 + oc.2)

/-- A persisted booking (`Bookings` collection / `booking` table).
The never-read `paidSessionId` and `createdAt` fields are omitted. -/
structure Booking where
  id : Nat
  groupId : Option Nat
  service : ServiceId
  startT : Nat
  endT : Nat
  clientEmail : Option Nat
deriving DecidableEq

/-- A persisted hold (`Holds` collection / `hold` table). Single holds store
the charge in `unitAmount`, bundle holds in `amount` (distinct fields in the
JS documents; the confirm path tests `hold.unitAmount === 6000`, which is
false when the field is absent). The never-read `type` and `createdAt`
fields are omitted. Customer emails are abstracted to numeric identities. -/
structure Hold where
  id : Nat
  groupId : Option Nat
  bundleId : Option String
  service : ServiceId
  startT : Nat
  endT : Nat
  endWB : Nat
  email : Option Nat
  unitAmount : Option Nat
  amount : Option Nat
  expireAt : Nat
deriving DecidableEq

/-- A customer record (`Users` collection / `user` table); only the fields
the reservation core reads. -/
structure User where
  email : Nat
  hbotCredits : Nat
deriving DecidableEq

/-- The shared store state. -/
structure St where
  bookings : List Booking
  holds : List Hold
  users : List User
deriving DecidableEq

/-- The empty store. -/
def emptySt : St := ⟨[], [], []⟩

/-- `areIntervalsOverlapping({start: ls, end: le}, {start: rs, end: re},
{inclusive: true})` from date-fns: endpoints touching count as overlap. -/
def inclusiveOverlap (ls le rs re : Nat) : Bool :=
  decide (ls ≤ re) && decide (rs ≤ le)

/-- `overlapsMongo` (`src/server.js` lines 105-122): conflict iff the
candidate `[startT, endWB]` inclusively overlaps the buffered interval of
some same-service booking (`endISO` plus that service's buffer) or of some
same-service hold with `expireAt > now` (its stored `endISOWB`). The JS
early-returns on a booking hit; `||` is the same Boolean. -/
def overlapsMongo (st : St) (now : Nat) (s : ServiceId) (startT endWB : Nat) : Bool :=
  ((st.bookings.filter (fun b => decide (b.service = s))).any
      (fun b => inclusiveOverlap startT endWB b.startT (b.endT + buffer b.service)))
  || ((st.holds.filter (fun h => decide (h.service = s) && decide (now < h.expireAt))).any
      (fun h => inclusiveOverlap startT endWB h.startT h.endWB))

/-- `overlapsPrisma` (`src/unnamed/part_000` lines 147-164): conflict iff
some same-service booking has `startISO < endWB` and `endISO > start`
(strict, unbuffered end), or some same-service hold has `startISO < endWB`,
`endISOWB > start` and `expireAt > now`. -/
def overlapsPrisma (st : St) (now : Nat) (s : ServiceId) (startT endWB : Nat) : Bool :=
  decide (0 < (st.bookings.filter (fun b =>
      decide (b.service = s) && decide (b.startT < endWB) && decide (startT < b.endT))).length)
  || decide (0 < (st.holds.filter (fun h =>
      decide (h.service = s) && decide (h.startT < endWB) && decide (startT < h.endWB)
        && decide (now < h.expireAt))).length)

/-- The Conflict Checker's contract, transcribed from the spec's words
(§4.2): the candidate's buffered interval inclusively overlaps the buffered
interval of some confirmed booking or of some live hold for the service. -/
def specOverlaps (st : St) (now : Nat) (s : ServiceId) (startT endWB : Nat) : Prop :=
  (∃ b ∈ st.bookings, b.service = s ∧
      startT ≤ b.endT + buffer b.service ∧ b.startT ≤ endWB) ∨
  (∃ h ∈ st.holds, h.service = s ∧ now < h.expireAt ∧
      startT ≤ h.endWB ∧ h.startT ≤ endWB)

/-- `withinHours` (`src/server.js` lines 123-130): day must be open,
`isBefore(start, open)` and `isAfter(end, close)` must both be false —
the close check uses the unbuffered service end. -/
def withinHours (s : ServiceId) (t : Nat) : Bool :=
  match businessWindowOn t with
  | none => false
  | some oc =>
    if t < oc.1 then false
    else if oc.2 < t + duration s then false
    else true

/-- `withinHours` (`src/unnamed/part_000` lines 128-134):
`!isAfter(d, close) && !isAfter(end, close) && !isAfter(open, d)`. -/
def withinHoursPrisma (s : ServiceId) (t : Nat) : Bool :=
  match businessWindowOn t with
  | none => false
  | some oc =>
    !(decide (oc.2 < t)) && !(decide (oc.2 < t + duration s)) && !(decide (oc.1 > t))

/-- `sameDayCutoffOK` (both files): with `SAME_DAY_CUTOFF_MIN = 0` the
first branch always returns true; otherwise a same-day start must be at
least the cutoff ahead of `now`. -/
def sameDayCutoffOK (startT now : Nat) : Bool :=
  if SAME_DAY_CUTOFF_MIN = 0 then true
  else if startT / 1440 ≠ now / 1440 then true
  else decide ((SAME_DAY_CUTOFF_MIN : Int) ≤ (startT : Int) - (now : Int))

/-- `userPriceFor` (both files): discounted rate 60 for `hbot` when the
customer exists and has positive `hbotCredits`, else the base price. -/
def userPriceFor (s : ServiceId) (user : Option User) : Nat :=
  match user with
  | some u => if s = ServiceId.hbot ∧ 0 < u.hbotCredits then 60 else price s
  | none => price s

/-- Result of a hold-placement call: `{ok:true, holdId/groupId}` or
`{ok:false, error}`. -/
inductive HoldRes
  | ok (id : Nat)
  | err (msg : String)
deriving DecidableEq

/-- Result of a confirm call: `{ok:true}` or the 409 hold-expired
rejection. (Payment and bad-metadata rejections happen before the hold
logic and are outside this model.) -/
inductive ConfRes
  | ok
  | holdExpired
deriving DecidableEq

/-- `placeHoldSingle` (`src/server.js` lines 209-228): hours, cutoff and
conflict checks in order, then insert one hold with
`expireAt = now + HOLD_TTL_MIN`. `newId` stands for the fresh `nanoid()`. -/
def placeHoldSingle (st : St) (now : Nat) (s : ServiceId) (startT : Nat)
    (email : Option Nat) (unitAmount : Nat) (newId : Nat) : HoldRes × St :=
  if !withinHours s startT then (.err "outside business hours", st)
  else if !sameDayCutoffOK startT now then (.err "past cutoff for today", st)
  else if overlapsMongo st now s startT (startT + duration s + buffer s) then
    (.err "slot currently unavailable", st)
  else
    (.ok newId,
      { st with holds := st.holds ++
          [ { id := newId, groupId := none, bundleId := none, service := s,
              startT := startT, endT := startT + duration s,
              endWB := startT + duration s + buffer s, email := email,
              unitAmount := some unitAmount, amount := none,
              expireAt := now + HOLD_TTL_MIN } ] })

/-- Validation loop of `placeHoldBundle` (`src/server.js` lines 231-237):
first failing selection's error, else `none`. -/
def firstSelError (st : St) (now : Nat) : List (ServiceId × Nat) → Option String
  | [] => none
  | sel :: rest =>
    if !withinHours sel.1 sel.2 then some "outside hours"
    else if !sameDayCutoffOK sel.2 now then some "past cutoff"
    else if overlapsMongo st now sel.1 sel.2 (sel.2 + duration sel.1 + buffer sel.1) then
      some "one or more slots unavailable"
    else firstSelError st now rest

/-- Document construction of `placeHoldBundle` (`selections.map`, lines
239-255): one hold per selection, shared `groupId` and `expireAt`; `ids i`
stands for the `nanoid()` minted for the `i`-th document. -/
def bundleDocs (bundleId : String) (email : Option Nat) (amount gid expireAt : Nat)
    (ids : Nat → Nat) : Nat → List (ServiceId × Nat) → List Hold
  | _, [] => []
  | i, sel :: rest =>
    { id := ids i, groupId := some gid, bundleId := some bundleId,
      service := sel.1, startT := sel.2, endT := sel.2 + duration sel.1,
      endWB := sel.2 + duration sel.1 + buffer sel.1, email := email,
      unitAmount := none, amount := some amount,
      expireAt := expireAt } :: bundleDocs bundleId email amount gid expireAt ids (i + 1) rest

/-- `placeHoldBundle` (`src/server.js` lines 229-258): validate every
selection first; only if all pass, insert one hold per selection sharing
`gid` (the fresh group `nanoid()`) and one expiry. -/
def placeHoldBundle (st : St) (now : Nat) (bundleId : String)
    (sels : List (ServiceId × Nat)) (email : Option Nat) (amount : Nat)
    (gid : Nat) (ids : Nat → Nat) : HoldRes × St :=
  match firstSelError st now sels with
  | some e => (.err e, st)
  | none =>
    (.ok gid,
      { st with holds := st.holds ++
          bundleDocs bundleId email amount gid (now + HOLD_TTL_MIN) ids 0 sels })

/-- `Users.updateOne({email}, {$inc:{hbotCredits:-1}})`: decrement the
credit balance of the first user with that email. -/
def decrementCredit : List User → Nat → List User
  | [], _ => []
  | u :: rest, e =>
    if u.email = e then { u with hbotCredits := u.hbotCredits - 1 } :: rest
    else u :: decrementCredit rest e

/-- Single-hold confirm (`src/server.js` lines 331-363, after payment is
verified): load the hold by id — presence is the only check; if absent,
409 hold-expired. Otherwise decrement one hbot credit when the service is
hbot, an email is known, that user exists with positive credits and the
hold stored the discounted `unitAmount === 6000`; insert the booking
(interval recomputed from the session metadata `service`/`startISO`);
delete the hold. `newBookingId` stands for the fresh `nanoid()`. -/
def confirmSingle (st : St) (now : Nat) (s : ServiceId) (startT : Nat)
    (holdId : Nat) (emailCookie : Option Nat) (newBookingId : Nat) : ConfRes × St :=
  match st.holds.find? (fun h => decide (h.id = holdId)) with
  | none => (.holdExpired, st)
  | some hold =>
    let email := match hold.email with
      | some e => some e
      | none => emailCookie
    let users := match email with
      | some e =>
        if s = ServiceId.hbot then
          match st.users.find? (fun u => decide (u.email = e)) with
          | some u =>
            if 0 < u.hbotCredits ∧ hold.unitAmount = some 6000 then
              decrementCredit st.users e
            else st.users
          | none => st.users
        else st.users
      | none => st.users
    (.ok,
      { bookings := st.bookings ++
          [ { id := newBookingId, groupId := none, service := s,
              startT := startT, endT := startT + duration s,
              clientEmail := email } ],
        holds := st.holds.filter (fun h => !(decide (h.id = holdId))),
        users := users })

/-- Bundle confirm (`src/server.js` lines 364-390): load all holds of the
group — non-emptiness is the only check; if none, 409 hold-expired.
Otherwise insert one booking per surviving hold (interval recomputed from
the hold's service) and delete the whole group. `bids i` stands for the
fresh `nanoid()` of the `i`-th booking. -/
def confirmBundle (st : St) (now : Nat) (gid : Nat) (emailCookie : Option Nat)
    (bids : Nat → Nat) : ConfRes × St :=
  match st.holds.filter (fun h => decide (h.groupId = some gid)) with
  | [] => (.holdExpired, st)
  | h0 :: rest =>
    let email := match h0.email with
      | some e => some e
      | none => emailCookie
    (.ok,
      { bookings := st.bookings ++
          (h0 :: rest).mapIdx (fun i h =>
            { id := bids i, groupId := some gid, service := h.service,
              startT := h.startT, endT := h.startT + duration h.service,
              clientEmail := email }),
        holds := st.holds.filter (fun h => !(decide (h.groupId = some gid))),
        users := st.users })

/-- Availability loop of `/api/availability` (`src/server.js` lines
183-195): while `cursor + duration ≤ close`, emit `(start, end)` when the
Conflict Checker reports no conflict for the buffered candidate, stepping
by `SLOT`. The JS `while` loop is embedded with a fuel argument; any fuel
of at least `close + 1 - cursor` yields the loop's value, since the cursor
strictly increases each iteration and the guard bounds it by `close`. -/
def availLoop (st : St) (now : Nat) (s : ServiceId) (close : Nat) :
    Nat → Nat → List (Nat × Nat)
  | 0, _ => []
  | fuel + 1, cursor =>
    if cursor + duration s ≤ close then
      if overlapsMongo st now s cursor (cursor + duration s + buffer s) then
        availLoop st now s close fuel (cursor + SLOT)
      else
        (cursor, cursor + duration s) :: availLoop st now s close fuel (cursor + SLOT)
    else []

/-- `/api/availability` (`src/server.js` lines 177-197): empty on a closed
day, else the loop from `window.open`. `dayT` is the instant
`${date}T00:00:00`. -/
def getAvailability (st : St) (now : Nat) (s : ServiceId) (dayT : Nat) :
    List (Nat × Nat) :=
  match businessWindowOn dayT with
  | none => []
  | some oc => availLoop st now s oc.2 (oc.2 + 1 - oc.1) oc.1

/-- `/api/quote` (both files): price for the cookie-identified customer. -/
def quotePrice (st : St) (email : Option Nat) (s : ServiceId) : Nat :=
  userPriceFor s (match email with
    | some e => st.users.find? (fun u => decide (u.email = e))
    | none => none)

/-- `/api/checkout-single` (`src/server.js` lines 263-287): resolve the
customer, fix `unitAmount = userPriceFor * 100` into the hold. -/
def checkoutSingle (st : St) (now : Nat) (email : Option Nat) (s : ServiceId)
    (startT : Nat) (newId : Nat) : HoldRes × St :=
  let user := match email with
    | some e => st.users.find? (fun u => decide (u.email = e))
    | none => none
  placeHoldSingle st now s startT email (userPriceFor s user * 100) newId

/-- `/api/checkout-bundle` (`src/server.js` lines 289-315): the only
selection validation is the length comparison against the bundle's service
list; the selections' own service ids are passed through unchecked. -/
def checkoutBundle (st : St) (now : Nat) (email : Option Nat) (bundleId : String)
    (sels : List (ServiceId × Nat)) (gid : Nat) (ids : Nat → Nat) : HoldRes × St :=
  match BUNDLES.find? (fun b => decide (b.id = bundleId)) with
  | none => (.err "invalid bundleId", st)
  | some bundle =>
    if sels.length ≠ bundle.services.length then
      (.err "selections must match bundle services", st)
    else placeHoldBundle st now bundleId sels email (bundle.price * 100) gid ids

/-- Operations of the reservation engine, for whole-trace statements:
time passage, hold creation (single and bundle), the store's expiry sweep
(Mongo's TTL monitor deleting holds with `expireAt ≤ now`), and the two
confirm paths. Fresh identifiers are carried in the operation. -/
inductive Op
  | tick (d : Nat)
  | holdSingle (s : ServiceId) (startT : Nat) (email : Option Nat)
      (unitAmount : Nat) (newId : Nat)
  | holdBundle (bundleId : String) (sels : List (ServiceId × Nat))
      (email : Option Nat) (amount : Nat) (gid : Nat) (ids : Nat → Nat)
  | sweep
  | confirmS (s : ServiceId) (startT : Nat) (holdId : Nat)
      (cookie : Option Nat) (bid : Nat)
  | confirmG (gid : Nat) (cookie : Option Nat) (bids : Nat → Nat)

/-- One engine step; a rejected operation leaves the store unchanged
(each rejecting code path returns without writing). -/
def step (s : St × Nat) (op : Op) : St × Nat :=
  match op with
  | .tick d => (s.1, s.2 + d)
  | .holdSingle svc t e amt id => ((placeHoldSingle s.1 s.2 svc t e amt id).2, s.2)
  | .holdBundle b sels e amt gid ids => ((placeHoldBundle s.1 s.2 b sels e amt gid ids).2, s.2)
  | .sweep => ({ s.1 with holds := s.1.holds.filter (fun h => decide (s.2 < h.expireAt)) }, s.2)
  | .confirmS svc t hid ck bid => ((confirmSingle s.1 s.2 svc t hid ck bid).2, s.2)
  | .confirmG gid ck bids => ((confirmBundle s.1 s.2 gid ck bids).2, s.2)

/-- Run a trace from the empty store at time 0. -/
def run (ops : List Op) : St × Nat :=
  ops.foldl step (emptySt, 0)

/-- The spec's core booking invariant (§3): no two distinct bookings for
the same service have inclusively-overlapping buffered intervals. -/
def noDoubleBooking (st : St) : Bool :=
  st.bookings.all fun b1 => st.bookings.all fun b2 =>
    decide (b1.id = b2.id) || !(decide (b1.service = b2.service))
    || !(inclusiveOverlap b1.startT (b1.endT + buffer b1.service)
          b2.startT (b2.endT + buffer b2.service))

/-- All three validation checks of one bundle selection, as a single
predicate (the conjunction of the checks `placeHoldBundle` runs per
selection). -/
def selValid (st : St) (now : Nat) (sel : ServiceId × Nat) : Bool :=
  withinHours sel.1 sel.2 && sameDayCutoffOK sel.2 now
    && !(overlapsMongo st now sel.1 sel.2 (sel.2 + duration sel.1 + buffer sel.1))

/-- Trace exhibiting the double-booking gap: a hold is placed for Monday
10:00 sauna, its TTL lapses 20 minutes later without a sweep, a second
hold for the identical slot is then accepted (the Conflict Checker rightly
ignores the expired hold), and both holds are subsequently confirmed —
the confirm path only tests presence, so both insert bookings. -/
def c1ops : List Op :=
  [ .holdSingle .sauna 2040 none 1000 1,
    .tick 20,
    .holdSingle .sauna 2040 none 1000 2,
    .confirmS .sauna 2040 1 none 10,
    .confirmS .sauna 2040 2 none 11 ]

/-- Store with one expired single hold (id 1) and one expired bundle hold
(id 2, group 5): both have `expireAt = 10`, and the observation time used
against them is 20. -/
def stExp : St :=
  { bookings := [],
    holds :=
      [ ⟨1, none, none, .sauna, 2040, 2055, 2055, none, some 1000, none, 10⟩,
        ⟨2, some 5, some "bundle_red_lymph", .redlight, 2100, 2115, 2120, none, none,
          some 1500, 10⟩ ],
    users := [] }

/-- Store with one redlight booking 100–115 (buffered end 120). -/
def st3 : St := { bookings := [⟨1, none, .redlight, 100, 115, none⟩], holds := [], users := [] }

/-- Store with one sauna booking 200–215 (buffer 0). -/
def st4 : St := { bookings := [⟨1, none, .sauna, 200, 215, none⟩], holds := [], users := [] }

/-- Store with a single customer (identity 7) holding 3 hbot credits. -/
def st9 : St := { bookings := [], holds := [], users := [⟨7, 3⟩] }

/-- Two sauna selections on a Monday — length 2 matches the two-service
bundle `bundle_red_lymph`, whose listed services are redlight and lymph. -/
def selsX : List (ServiceId × Nat) := [(.sauna, 2040), (.sauna, 2100)]

instance (st : St) (now : Nat) (s : ServiceId) (a b : Nat) :
    Decidable (specOverlaps st now s a b) := by
  unfold specOverlaps
  exact inferInstance

/-! Helper lemmas (shared between claim theorems). -/

/-- Characterization of the Mongo conflict check as an existential over the
store. -/
theorem overlapsMongo_iff (st : St) (now : Nat) (s : ServiceId) (a b : Nat) :
    overlapsMongo st now s a b = true ↔ specOverlaps st now s a b := by
  unfold overlapsMongo specOverlaps inclusiveOverlap
  simp only [Bool.or_eq_true, List.any_eq_true, List.mem_filter, Bool.and_eq_true,
    decide_eq_true_eq]
  constructor
  · rintro (⟨bk, ⟨hmem, hsvc⟩, h1, h2⟩ | ⟨h, ⟨hmem, hsvc, hlive⟩, h1, h2⟩)
    · exact Or.inl ⟨bk, hmem, hsvc, h1, h2⟩
    · exact Or.inr ⟨h, hmem, hsvc, hlive, h1, h2⟩
  · rintro (⟨bk, hmem, hsvc, h1, h2⟩ | ⟨h, hmem, hsvc, hlive, h1, h2⟩)
    · exact Or.inl ⟨bk, ⟨hmem, hsvc⟩, h1, h2⟩
    · exact Or.inr ⟨h, ⟨hmem, hsvc, hlive⟩, h1, h2⟩

/-- Characterization of the Prisma conflict check: strict overlap, and the
booking comparison uses the unbuffered `endISO`. -/
theorem overlapsPrisma_iff (st : St) (now : Nat) (s : ServiceId) (a b : Nat) :
    overlapsPrisma st now s a b = true ↔
      ((∃ bk ∈ st.bookings, bk.service = s ∧ bk.startT < b ∧ a < bk.endT) ∨
       (∃ h ∈ st.holds, h.service = s ∧ h.startT < b ∧ a < h.endWB ∧ now < h.expireAt)) := by
  unfold overlapsPrisma
  simp only [Bool.or_eq_true, decide_eq_true_eq, List.length_pos, ne_eq,
    List.filter_eq_nil_iff, List.mem_filter, Bool.and_eq_true, not_forall]
  constructor
  · rintro (⟨bk, hmem, hbad⟩ | ⟨h, hmem, hbad⟩)
    · refine Or.inl ⟨bk, hmem, ?_⟩
      simpa [Bool.and_eq_true, decide_eq_true_eq, and_assoc] using not_not.mp hbad
    · refine Or.inr ⟨h, hmem, ?_⟩
      simpa [Bool.and_eq_true, decide_eq_true_eq, and_assoc] using not_not.mp hbad
  · rintro (⟨bk, hmem, h1, h2, h3⟩ | ⟨h, hmem, h1, h2, h3, h4⟩)
    · exact Or.inl ⟨bk, hmem, by simp [h1, h2, h3]⟩
    · exact Or.inr ⟨h, hmem, by simp [h1, h2, h3, h4]⟩

/-- The validation loop reports no error exactly when every selection
passes all three checks. -/
theorem firstSelError_eq_none_iff (st : St) (now : Nat) :
    ∀ sels, firstSelError st now sels = none ↔ ∀ sel ∈ sels, selValid st now sel = true := by
  intro sels
  induction sels with
  | nil => simp [firstSelError]
  | cons sel rest ih =>
    by_cases h1 : withinHours sel.1 sel.2
    · by_cases h2 : sameDayCutoffOK sel.2 now
      · by_cases h3 :
            overlapsMongo st now sel.1 sel.2 (sel.2 + duration sel.1 + buffer sel.1) = true
        · simp [firstSelError, selValid, h1, h2, h3]
        · simp only [Bool.not_eq_true] at h3
          simp [firstSelError, selValid, h1, h2, h3, ih]
      · simp [firstSelError, selValid, h1, h2]
    · simp [firstSelError, selValid, h1]

/-- `bundleDocs` emits one document per selection. -/
theorem bundleDocs_length (b : String) (em : Option Nat) (amt gid exp : Nat)
    (ids : Nat → Nat) :
    ∀ (sels : List (ServiceId × Nat)) (i : Nat),
      (bundleDocs b em amt gid exp ids i sels).length = sels.length := by
  intro sels
  induction sels with
  | nil => intro i; rfl
  | cons sel rest ih => intro i; simp [bundleDocs, ih]

/-- Every document `bundleDocs` emits carries the shared group id, expiry
and charge. -/
theorem bundleDocs_fields (b : String) (em : Option Nat) (amt gid exp : Nat)
    (ids : Nat → Nat) :
    ∀ (sels : List (ServiceId × Nat)) (i : Nat),
      ∀ d ∈ bundleDocs b em amt gid exp ids i sels,
        d.groupId = some gid ∧ d.expireAt = exp ∧ d.amount = some amt := by
  intro sels
  induction sels with
  | nil => intro i d hd; cases hd
  | cons sel rest ih =>
    intro i d hd
    rcases List.mem_cons.mp hd with h | h
    · subst h
      exact ⟨rfl, rfl, rfl⟩
    · exact ih (i + 1) d h

/-! Claim theorems. -/

/-- C1: the spec's core invariant — no two same-service bookings with
overlapping buffered intervals can ever arise from a sequence of hold
creations, expiries and confirmations starting from the empty store —
fails on the code: the trace `c1ops` lets a hold expire unswept, places and
confirms a second hold for the identical slot, then confirms the first
(still-present) hold, leaving two identical sauna bookings. -/
theorem double_booking_trace :
    noDoubleBooking (run c1ops).1 = false ∧
    (run c1ops).1.bookings.map (fun b => (b.service, b.startT, b.endT))
      = [(ServiceId.sauna, 2040, 2055), (ServiceId.sauna, 2040, 2055)] := by
  decide

/-- C2: confirmation does not treat an expired-but-unswept hold as dead.
In `stExp` every hold's expiry (10) is at or before the observation time
(20), yet `confirmSingle` on hold 1 and `confirmBundle` on group 5 both
return ok and insert a booking instead of the hold-expired rejection. -/
theorem confirm_accepts_expired_hold :
    (∀ h ∈ stExp.holds, h.expireAt ≤ 20) ∧
    (confirmSingle stExp 20 ServiceId.sauna 2040 1 none 100).1 = ConfRes.ok ∧
    (confirmSingle stExp 20 ServiceId.sauna 2040 1 none 100).2.bookings.length = 1 ∧
    (confirmBundle stExp 20 5 none (fun i => 200 + i)).1 = ConfRes.ok ∧
    (confirmBundle stExp 20 5 none (fun i => 200 + i)).2.bookings.length = 1 := by
  refine ⟨by decide, by decide, by decide, ?_, ?_⟩ <;> decide

/-- C3: the claim's iff (inclusive overlap against buffered intervals of
bookings and live holds) fails for the Prisma conflict check: in `st3` the
candidate redlight interval 115–135 overlaps the buffered interval 100–120
of the stored booking, so the claim demands a conflict (and the Mongo check
reports one), but `overlapsPrisma` returns false — its booking comparison
is strict and ignores the buffer. -/
theorem conflict_check_spec_cex :
    overlapsPrisma st3 0 ServiceId.redlight 115 135 = false ∧
    specOverlaps st3 0 ServiceId.redlight 115 135 ∧
    overlapsMongo st3 0 ServiceId.redlight 115 135 = true := by
  refine ⟨by decide, by decide, by decide⟩

/-- C3 (amended): `overlapsMongo` satisfies the claimed iff — conflict
exactly when the candidate's buffered interval inclusively overlaps the
buffered interval of a same-service booking or live hold; `overlapsPrisma`
instead reports conflict exactly when the candidate strictly overlaps a
same-service booking's unbuffered interval or a live hold's buffered
interval, so touching intervals and a booking's buffer zone never conflict
there. -/
theorem conflict_check_characterization :
    (∀ (st : St) (now : Nat) (s : ServiceId) (a b : Nat),
        overlapsMongo st now s a b = true ↔ specOverlaps st now s a b) ∧
    (∀ (st : St) (now : Nat) (s : ServiceId) (a b : Nat),
        overlapsPrisma st now s a b = true ↔
          ((∃ bk ∈ st.bookings, bk.service = s ∧ bk.startT < b ∧ a < bk.endT) ∨
           (∃ h ∈ st.holds, h.service = s ∧ h.startT < b ∧ a < h.endWB ∧ now < h.expireAt))) :=
  ⟨overlapsMongo_iff, overlapsPrisma_iff⟩

/-- C4: the two backends are not interchangeable — on the same store
(`st4`, one sauna booking 200–215) and the same touching candidate 215–230,
the Mongo check reports a conflict and the Prisma check does not. -/
theorem backends_disagree_cex :
    overlapsMongo st4 0 ServiceId.sauna 215 230 = true ∧
    overlapsPrisma st4 0 ServiceId.sauna 215 230 = false := by
  decide

/-- C4 (amended): the backends are not equivalent, but every conflict the
Prisma check reports is also reported by the Mongo check (the converse
fails, witnessed by `backends_disagree_cex`). -/
theorem prisma_implies_mongo (st : St) (now : Nat) (s : ServiceId) (a b : Nat)
    (h : overlapsPrisma st now s a b = true) : overlapsMongo st now s a b = true := by
  rw [overlapsPrisma_iff] at h
  rw [overlapsMongo_iff]
  unfold specOverlaps
  rcases h with ⟨bk, hmem, hsvc, h1, h2⟩ | ⟨hd, hmem, hsvc, h1, h2, h3⟩
  · exact Or.inl ⟨bk, hmem, hsvc, by omega, by omega⟩
  · exact Or.inr ⟨hd, hmem, hsvc, h3, by omega, by omega⟩

/-- Witness for `prisma_implies_mongo` at a concrete conflicting input. -/
theorem prisma_implies_mongo_witness :
    overlapsMongo ⟨[⟨1, none, ServiceId.sauna, 300, 315, none⟩], [], []⟩ 0
      ServiceId.sauna 310 325 = true :=
  prisma_implies_mongo _ 0 ServiceId.sauna 310 325 (by decide)

/-- C7: on an open day both business-hours checks accept a start exactly
when it is not before open and the unbuffered service end is not after
close; concretely the 60-minute hbot with 30-minute buffer starting
Tuesday 11:00 (t = 3540) is accepted although its buffered end 12:30
(3630) exceeds the 12:00 close (3600). -/
theorem withinHours_unbuffered_close :
    (∀ (s : ServiceId) (t o c : Nat), businessWindowOn t = some (o, c) →
      ((withinHours s t = true ↔ o ≤ t ∧ t + duration s ≤ c) ∧
       (withinHoursPrisma s t = true ↔ o ≤ t ∧ t + duration s ≤ c))) ∧
    (withinHours ServiceId.hbot 3540 = true ∧
     withinHoursPrisma ServiceId.hbot 3540 = true ∧
     businessWindowOn 3540 = some (3300, 3600) ∧
     3540 + duration ServiceId.hbot = 3600 ∧
     3540 + duration ServiceId.hbot + buffer ServiceId.hbot = 3630) := by
  constructor
  · intro s t o c h
    constructor
    · unfold withinHours
      rw [h]
      show (if t < o then false
          else if c < t + duration s then false else true) = true
        ↔ o ≤ t ∧ t + duration s ≤ c
      split
      next h1 => simp only [Bool.false_eq_true, false_iff]; omega
      next h1 =>
        split
        next h2 => simp only [Bool.false_eq_true, false_iff]; omega
        next h2 => simp only [true_iff]; omega
    · unfold withinHoursPrisma
      rw [h]
      show (!(decide (c < t)) && !(decide (c < t + duration s)) && !(decide (o > t))) = true
        ↔ o ≤ t ∧ t + duration s ≤ c
      simp only [gt_iff_lt, Bool.and_eq_true, Bool.not_eq_true', decide_eq_false_iff_not,
        Nat.not_lt]
      omega
  · exact ⟨by decide, by decide, by decide, by decide, by decide⟩

/-- Witness for `withinHours_unbuffered_close` at the Tuesday 11:00 hbot
scenario. -/
theorem withinHours_unbuffered_close_witness :
    withinHours ServiceId.hbot 3540 = true ↔
      3300 ≤ 3540 ∧ 3540 + duration ServiceId.hbot ≤ 3600 :=
  (withinHours_unbuffered_close.1 ServiceId.hbot 3540 3300 3600 (by decide)).1

/-- C10: bundle checkout validates only the selection count. The two sauna
selections of `selsX` match the length of `bundle_red_lymph`'s service
list (redlight, lymph) without matching its services, yet checkout is not
rejected: holds are created for sauna at the bundle's fixed charge 1500. -/
theorem bundle_checkout_counts_only :
    (BUNDLES.find? (fun b => decide (b.id = "bundle_red_lymph"))).map Bundle.services
      = some [ServiceId.redlight, ServiceId.lymph] ∧
    (∀ sel ∈ selsX, sel.1 = ServiceId.sauna) ∧
    (checkoutBundle emptySt 1500 none "bundle_red_lymph" selsX 77 (fun i => 80 + i)).1
      = HoldRes.ok 77 ∧
    ((checkoutBundle emptySt 1500 none "bundle_red_lymph" selsX 77 (fun i => 80 + i)).2.holds.map
        (fun h => (h.service, h.amount, h.groupId)))
      = [(ServiceId.sauna, some 1500, some 77), (ServiceId.sauna, some 1500, some 77)] := by
  refine ⟨by decide, by decide, by decide, by decide⟩

/-- C5: bundle hold creation is all-or-nothing — if any selection fails the
hours/cutoff/conflict validation the store is returned untouched with an
error; if every selection passes, the call succeeds with the group id and
appends exactly one hold per selection, each carrying the shared group id
and the shared expiry `now + HOLD_TTL_MIN`. -/
theorem bundle_all_or_nothing (st : St) (now : Nat) (b : String)
    (sels : List (ServiceId × Nat)) (email : Option Nat) (amount gid : Nat)
    (ids : Nat → Nat) :
    ((∃ sel ∈ sels, ¬ selValid st now sel = true) →
        ∃ msg, placeHoldBundle st now b sels email amount gid ids = (.err msg, st)) ∧
    ((∀ sel ∈ sels, selValid st now sel = true) →
        (placeHoldBundle st now b sels email amount gid ids).1 = .ok gid ∧
        ∃ docs, (placeHoldBundle st now b sels email amount gid ids).2 =
              { st with holds := st.holds ++ docs } ∧
            docs.length = sels.length ∧
            ∀ d ∈ docs, d.groupId = some gid ∧ d.expireAt = now + HOLD_TTL_MIN) := by
  constructor
  · rintro ⟨sel, hmem, hbad⟩
    cases hfe : firstSelError st now sels with
    | none => exact absurd ((firstSelError_eq_none_iff st now sels).mp hfe sel hmem) hbad
    | some msg =>
      refine ⟨msg, ?_⟩
      unfold placeHoldBundle
      rw [hfe]
  · intro hall
    have hfe : firstSelError st now sels = none :=
      (firstSelError_eq_none_iff st now sels).mpr hall
    have hres : placeHoldBundle st now b sels email amount gid ids =
        (.ok gid,
          { st with holds := st.holds ++
              bundleDocs b email amount gid (now + HOLD_TTL_MIN) ids 0 sels }) := by
      unfold placeHoldBundle
      rw [hfe]
    refine ⟨by rw [hres], bundleDocs b email amount gid (now + HOLD_TTL_MIN) ids 0 sels,
      by rw [hres], bundleDocs_length b email amount gid (now + HOLD_TTL_MIN) ids sels 0,
      fun d hd => ?_⟩
    have := bundleDocs_fields b email amount gid (now + HOLD_TTL_MIN) ids sels 0 d hd
    exact ⟨this.1, this.2.1⟩

/-- Witness for `bundle_all_or_nothing`: a Sunday selection (closed day)
makes the whole bundle fail with the store untouched, and two valid
Monday selections succeed. -/
theorem bundle_all_or_nothing_witness :
    (∃ msg, placeHoldBundle emptySt 1500 "bundle_red_lymph" [(ServiceId.sauna, 0)] none
        1500 9 (fun i => 50 + i) = (.err msg, emptySt)) ∧
    (placeHoldBundle emptySt 1500 "bundle_red_lymph" [(ServiceId.sauna, 2040)] none
        1500 9 (fun i => 50 + i)).1 = HoldRes.ok 9 :=
  ⟨(bundle_all_or_nothing emptySt 1500 "bundle_red_lymph" [(ServiceId.sauna, 0)] none
        1500 9 (fun i => 50 + i)).1 ⟨(ServiceId.sauna, 0), by decide, by decide⟩,
   ((bundle_all_or_nothing emptySt 1500 "bundle_red_lymph" [(ServiceId.sauna, 2040)] none
        1500 9 (fun i => 50 + i)).2 (by decide)).1⟩

/-- C6: confirmation succeeds at most once per hold and per group — after
a successful single confirm the hold is deleted, so any further confirm on
that hold id returns the hold-expired rejection and leaves the store
unchanged; likewise for a bundle group. -/
theorem confirm_at_most_once (st : St) (now : Nat) (s : ServiceId)
    (startT holdId : Nat) (ck : Option Nat) (bid : Nat) (now2 : Nat) (s2 : ServiceId)
    (startT2 : Nat) (ck2 : Option Nat) (bid2 : Nat) (gid : Nat) (ckb : Option Nat)
    (bids : Nat → Nat) (now3 : Nat) (ckb2 : Option Nat) (bids2 : Nat → Nat) :
    ((confirmSingle st now s startT holdId ck bid).1 = ConfRes.ok →
      confirmSingle (confirmSingle st now s startT holdId ck bid).2 now2 s2 startT2
          holdId ck2 bid2
        = (ConfRes.holdExpired, (confirmSingle st now s startT holdId ck bid).2)) ∧
    ((confirmBundle st now gid ckb bids).1 = ConfRes.ok →
      confirmBundle (confirmBundle st now gid ckb bids).2 now3 gid ckb2 bids2
        = (ConfRes.holdExpired, (confirmBundle st now gid ckb bids).2)) := by
  constructor
  · intro hok
    cases hfind : st.holds.find? (fun h => decide (h.id = holdId)) with
    | none =>
      rw [show confirmSingle st now s startT holdId ck bid = (ConfRes.holdExpired, st) by
        unfold confirmSingle; rw [hfind]] at hok
      cases hok
    | some hold =>
      have hholds : (confirmSingle st now s startT holdId ck bid).2.holds
          = st.holds.filter (fun h => !(decide (h.id = holdId))) := by
        unfold confirmSingle
        rw [hfind]
      have hnone : (confirmSingle st now s startT holdId ck bid).2.holds.find?
          (fun h => decide (h.id = holdId)) = none := by
        rw [hholds]
        refine List.find?_eq_none.mpr fun x hx => ?_
        have hxm := (List.mem_filter.mp hx).2
        simp only [Bool.not_eq_true', decide_eq_false_iff_not] at hxm
        simpa using hxm
      generalize hst1 : (confirmSingle st now s startT holdId ck bid).2 = st1 at hnone ⊢
      unfold confirmSingle
      rw [hnone]
  · intro hok
    cases hflt : st.holds.filter (fun h => decide (h.groupId = some gid)) with
    | nil =>
      rw [show confirmBundle st now gid ckb bids = (ConfRes.holdExpired, st) by
        unfold confirmBundle; rw [hflt]] at hok
      cases hok
    | cons h0 rest =>
      have hholds : (confirmBundle st now gid ckb bids).2.holds
          = st.holds.filter (fun h => !(decide (h.groupId = some gid))) := by
        unfold confirmBundle
        rw [hflt]
      have hnil : (confirmBundle st now gid ckb bids).2.holds.filter
          (fun h => decide (h.groupId = some gid)) = [] := by
        rw [hholds]
        refine List.filter_eq_nil_iff.mpr fun a ha => ?_
        have ham := (List.mem_filter.mp ha).2
        simp only [Bool.not_eq_true', decide_eq_false_iff_not] at ham
        simpa using ham
      generalize hst1 : (confirmBundle st now gid ckb bids).2 = st1 at hnil ⊢
      unfold confirmBundle
      rw [hnil]

/-- Witness for `confirm_at_most_once` on a store holding one single hold
and one bundle hold. -/
theorem confirm_at_most_once_witness :
    (confirmSingle (confirmSingle stExp 0 ServiceId.sauna 2040 1 none 100).2 0
        ServiceId.sauna 2040 1 none 101).1 = ConfRes.holdExpired ∧
    (confirmBundle (confirmBundle stExp 0 5 none (fun i => 200 + i)).2 0 5 none
        (fun i => 300 + i)).1 = ConfRes.holdExpired :=
  ⟨by rw [(confirm_at_most_once stExp 0 ServiceId.sauna 2040 1 none 100 0 ServiceId.sauna
        2040 none 101 5 none (fun i => 200 + i) 0 none (fun i => 300 + i)).1 (by decide)],
   by rw [(confirm_at_most_once stExp 0 ServiceId.sauna 2040 1 none 100 0 ServiceId.sauna
        2040 none 101 5 none (fun i => 200 + i) 0 none (fun i => 300 + i)).2 (by decide)]⟩

/-- C9: hbot credit pricing — a customer with positive credit balance is
quoted the discounted 60; a zero balance or a different service gets the
base price and consumes no credit; the concrete flow for customer 7 with
balance 3 stores 6000 in the hold's charge and confirmation leaves the
balance at 2. -/
theorem credit_pricing_flow :
    (∀ u : User, 0 < u.hbotCredits → userPriceFor ServiceId.hbot (some u) = 60) ∧
    (∀ u : User, u.hbotCredits = 0 →
        userPriceFor ServiceId.hbot (some u) = price ServiceId.hbot) ∧
    (∀ (s : ServiceId) (u : Option User), s ≠ ServiceId.hbot → userPriceFor s u = price s) ∧
    (∀ (st : St) (now : Nat) (s : ServiceId) (t hid : Nat) (ck : Option Nat) (bid : Nat),
        s ≠ ServiceId.hbot → (confirmSingle st now s t hid ck bid).2.users = st.users) ∧
    (∀ (st : St) (now : Nat) (s : ServiceId) (t hid : Nat) (ck : Option Nat) (bid : Nat),
        (∀ u ∈ st.users, u.hbotCredits = 0) →
        (confirmSingle st now s t hid ck bid).2.users = st.users) ∧
    (quotePrice st9 (some 7) ServiceId.hbot = 60 ∧
     (checkoutSingle st9 1500 (some 7) ServiceId.hbot 1860 1).2.holds.map Hold.unitAmount
       = [some 6000] ∧
     (confirmSingle (checkoutSingle st9 1500 (some 7) ServiceId.hbot 1860 1).2
          1500 ServiceId.hbot 1860 1 (some 7) 2).2.users = [⟨7, 2⟩]) := by
  refine ⟨?_, ?_, ?_, ?_, ?_, by decide, by decide, by decide⟩
  · intro u hu
    simp [userPriceFor, hu]
  · intro u hu
    simp [userPriceFor, hu]
  · intro s u hs
    cases u with
    | none => rfl
    | some u => simp [userPriceFor, hs]
  · intro st now s t hid ck bid hs
    cases hfind : st.holds.find? (fun h => decide (h.id = hid)) with
    | none =>
      unfold confirmSingle
      rw [hfind]
    | some hold =>
      unfold confirmSingle
      rw [hfind]
      simp [hs]
      split <;> rfl
  · intro st now s t hid ck bid hzero
    cases hfind : st.holds.find? (fun h => decide (h.id = hid)) with
    | none =>
      unfold confirmSingle
      rw [hfind]
    | some hold =>
      have husers : ∀ e : Nat,
          (match st.users.find? (fun u => decide (u.email = e)) with
            | some u =>
              if 0 < u.hbotCredits ∧ hold.unitAmount = some 6000 then
                decrementCredit st.users e
              else st.users
            | none => st.users) = st.users := by
        intro e
        cases hfu : st.users.find? (fun u => decide (u.email = e)) with
        | none => rfl
        | some u =>
          have hmem : u ∈ st.users := List.mem_of_find?_eq_some hfu
          have : u.hbotCredits = 0 := hzero u hmem
          simp [this]
      unfold confirmSingle
      rw [hfind]
      simp [husers]
      split <;> rfl

/-- Witness for `credit_pricing_flow` at a customer with balance 3. -/
theorem credit_pricing_flow_witness :
    userPriceFor ServiceId.hbot (some ⟨7, 3⟩) = 60 :=
  credit_pricing_flow.1 ⟨7, 3⟩ (by decide)

/-- Membership in the availability loop: with sufficient fuel, exactly the
conflict-free cursor positions reached from `cursor` in `SLOT` steps whose
service end fits before close. -/
theorem availLoop_mem (st : St) (now : Nat) (s : ServiceId) (close : Nat)
    (p : Nat × Nat) :
    ∀ (fuel cursor : Nat), close + 1 - cursor ≤ fuel →
      (p ∈ availLoop st now s close fuel cursor ↔
        ∃ k, p.1 = cursor + SLOT * k ∧ p.2 = p.1 + duration s ∧
          p.1 + duration s ≤ close ∧
          overlapsMongo st now s p.1 (p.1 + duration s + buffer s) = false) := by
  obtain ⟨p1, p2⟩ := p
  intro fuel
  induction fuel with
  | zero =>
    intro cursor hf
    simp only [availLoop, List.not_mem_nil, false_iff, not_exists]
    rintro k ⟨hk1, hk2, hk3, hk4⟩
    simp only [SLOT] at hk1
    omega
  | succ fuel ih =>
    intro cursor hf
    by_cases hg : cursor + duration s ≤ close
    · have hf' : close + 1 - (cursor + SLOT) ≤ fuel := by
        simp only [SLOT]
        omega
      have hrest := ih (cursor + SLOT) hf'
      by_cases hov : overlapsMongo st now s cursor (cursor + duration s + buffer s) = true
      · rw [availLoop, if_pos hg, if_pos hov, hrest]
        constructor
        · rintro ⟨k, hk1, hk2, hk3, hk4⟩
          refine ⟨k + 1, ?_, hk2, hk3, hk4⟩
          simp only [SLOT] at hk1 ⊢
          omega
        · rintro ⟨k, hk1, hk2, hk3, hk4⟩
          cases k with
          | zero =>
            exfalso
            simp only [SLOT, Nat.mul_zero, Nat.add_zero] at hk1
            rw [hk1] at hk4
            rw [hk4] at hov
            cases hov
          | succ k =>
            refine ⟨k, ?_, hk2, hk3, hk4⟩
            simp only [SLOT] at hk1 ⊢
            omega
      · rw [Bool.not_eq_true] at hov
        rw [availLoop, if_pos hg, if_neg (by simp [hov]), List.mem_cons, hrest]
        constructor
        · rintro (hp | ⟨k, hk1, hk2, hk3, hk4⟩)
          · obtain ⟨hp1, hp2⟩ := Prod.mk.injEq .. ▸ hp
            refine ⟨0, ?_, ?_, ?_, ?_⟩
            · simp only [SLOT, Nat.mul_zero, Nat.add_zero]; omega
            · omega
            · omega
            · rw [hp1]; exact hov
          · refine ⟨k + 1, ?_, hk2, hk3, hk4⟩
            simp only [SLOT] at hk1 ⊢
            omega
        · rintro ⟨k, hk1, hk2, hk3, hk4⟩
          cases k with
          | zero =>
            left
            simp only [SLOT, Nat.mul_zero, Nat.add_zero] at hk1
            simp only [Prod.mk.injEq]
            omega
          | succ k =>
            right
            refine ⟨k, ?_, hk2, hk3, hk4⟩
            simp only [SLOT] at hk1 ⊢
            omega
    · rw [availLoop, if_neg hg]
      simp only [List.not_mem_nil, false_iff, not_exists]
      rintro k ⟨hk1, hk2, hk3, hk4⟩
      simp only [SLOT] at hk1
      omega

/-- C8: availability returns empty on a closed day; on an open day it
returns exactly the `(start, end)` pairs at cursor positions stepped from
`window.open` in `SLOT`-minute increments whose unbuffered end fits before
close and whose buffered candidate has no conflict; on a Monday with an
empty store the 15-minute sauna gets 44 slots 07:00, 07:15, …, 17:45. -/
theorem availability_slot_grid :
    (∀ (st : St) (now : Nat) (s : ServiceId) (dayT : Nat),
        businessWindowOn dayT = none → getAvailability st now s dayT = []) ∧
    (∀ (st : St) (now : Nat) (s : ServiceId) (dayT o c : Nat),
        businessWindowOn dayT = some (o, c) → ∀ p : Nat × Nat,
        (p ∈ getAvailability st now s dayT ↔
          ∃ k, p.1 = o + SLOT * k ∧ p.2 = p.1 + duration s ∧
            p.1 + duration s ≤ c ∧
            overlapsMongo st now s p.1 (p.1 + duration s + buffer s) = false)) ∧
    getAvailability emptySt 0 ServiceId.sauna 1440
      = (List.range 44).map (fun k => (1860 + 15 * k, 1875 + 15 * k)) := by
  refine ⟨?_, ?_, by decide⟩
  · intro st now s dayT h
    unfold getAvailability
    rw [h]
  · intro st now s dayT o c h p
    have : getAvailability st now s dayT = availLoop st now s c (c + 1 - o) o := by
      unfold getAvailability
      rw [h]
    rw [this]
    exact availLoop_mem st now s c p (c + 1 - o) o (Nat.le_refl _)

/-- Witness for `availability_slot_grid`: the first Monday sauna slot. -/
theorem availability_slot_grid_witness :
    (1860, 1875) ∈ getAvailability emptySt 0 ServiceId.sauna 1440 :=
  (availability_slot_grid.2.1 emptySt 0 ServiceId.sauna 1440 1860 2520 (by decide)
      (1860, 1875)).mpr ⟨0, by decide, by decide, by decide, by decide⟩

end DetoxEdge
